import Mathlib

/-!
Verification of the orchestration core of the LangGraph cleaning/segmentation
repository (src/agents.py, src/tools.py, src/state.py).

Strings are modelled as `List Char` (the `data` of a Lean `String`), messages
as their content strings, and the nondeterministic LLM backends as explicit
inputs: each embedded function takes the backend's free-text answer (or the
worker's produced messages) as an argument and models the deterministic code
around it.
-/

namespace CleanSeg

/-! ### Python string primitives -/

/-- Python `str.strip()` whitespace class (ASCII part). -/
def pyIsSpace (c : Char) : Bool :=
  c = ' ' || c = '\t' || c = '\n' || c = '\r' || c = '\x0b' || c = '\x0c'

/-- Python `s.strip()`: drop leading and trailing whitespace. -/
def pyStrip (s : List Char) : List Char :=
  ((s.dropWhile pyIsSpace).reverse.dropWhile pyIsSpace).reverse

lemma pyStrip_isSub (s : List Char) : pyStrip s <:+: s := by
  have h1 : (s.dropWhile pyIsSpace).reverse.dropWhile pyIsSpace <:+
      (s.dropWhile pyIsSpace).reverse := List.dropWhile_suffix _
  have h2 : pyStrip s <+: s.dropWhile pyIsSpace := by
    have h2' : pyStrip s <+: ((s.dropWhile pyIsSpace).reverse).reverse :=
      List.reverse_prefix.mpr h1
    rwa [List.reverse_reverse] at h2'
  exact h2.isInfix.trans (List.dropWhile_suffix pyIsSpace).isInfix

lemma dropWhile_keeps_sub {o : List Char} (ho : o ≠ [])
    (hns : ∀ c ∈ o, pyIsSpace c = false) :
    ∀ s : List Char, o <:+: s → o <:+: s.dropWhile pyIsSpace := by
  intro s
  induction s with
  | nil =>
    intro h
    simp only [List.dropWhile_nil]
    exact h
  | cons a t ih =>
    intro h
    by_cases ha : pyIsSpace a
    · rw [List.dropWhile_cons_of_pos ha]
      rcases List.infix_cons_iff.mp h with hpre | hsub
      · obtain ⟨c, o', rfl⟩ : ∃ c o', o = c :: o' := by
          cases o with
          | nil => exact absurd rfl ho
          | cons c o' => exact ⟨c, o', rfl⟩
        have hca : c = a := (List.cons_prefix_cons.mp hpre).1
        have : pyIsSpace c = false := hns c (by simp)
        rw [hca] at this
        rw [this] at ha
        exact absurd ha (by simp)
      · exact ih hsub
    · rw [List.dropWhile_cons_of_neg ha]
      exact h

/-- A nonempty whitespace-free pattern occurs in `s` iff it occurs in `s.strip()`. -/
lemma strip_sub_iff (o s : List Char) (ho : o ≠ [])
    (hns : ∀ c ∈ o, pyIsSpace c = false) :
    o <:+: pyStrip s ↔ o <:+: s := by
  constructor
  · intro h
    exact h.trans (pyStrip_isSub s)
  · intro h
    have h1 : o <:+: s.dropWhile pyIsSpace := dropWhile_keeps_sub ho hns s h
    have h2 : o.reverse <:+: (s.dropWhile pyIsSpace).reverse :=
      List.reverse_infix.mpr h1
    have h3 : o.reverse <:+: ((s.dropWhile pyIsSpace).reverse).dropWhile pyIsSpace :=
      dropWhile_keeps_sub (by simpa using ho)
        (by intro c hc; exact hns c (by simpa using hc)) _ h2
    rw [pyStrip, ← List.reverse_reverse o]
    exact List.reverse_infix.mpr h3

/-! ### Router (src/agents.py lines 46-97)

`supervisor_node` builds a prompt, calls the LLM, strips the answer, and then
scans the fixed `options` list for the first name occurring as a substring of
the answer, defaulting to "FINISH".  The LLM call is the external input: the
embedded `supervisor_node` takes the backend's raw `response.content` string
and returns the `next_node` value the Python function would return. -/

def cleaning_agent : List Char := "cleaning_agent".data

def clustering_agent : List Char := "clustering_agent".data

def visualization_agent : List Char := "visualization_agent".data

def FINISH_token : List Char := "FINISH".data

/-- `members = ["cleaning_agent", "clustering_agent", "visualization_agent"]`. -/
def members : List (List Char) := [cleaning_agent, clustering_agent, visualization_agent]

/-- `options = members + ["FINISH"]`. -/
def options : List (List Char) := members ++ [FINISH_token]

/-- Lines 83-87: `detected_agent = "FINISH"; for option in options: if option in
content: detected_agent = option; break`. -/
def detected_agent (content : List Char) : List Char :=
  (options.find? (fun o => decide (o <:+: content))).getD FINISH_token

/-- Lines 78-97 of `supervisor_node`: `content = response.content.strip()`, then
the detection loop; returns the `next_node` value. -/
def supervisor_node (response_content : List Char) : List Char :=
  detected_agent (pyStrip response_content)

lemma options_ne_nil : ∀ o ∈ options, o ≠ [] := by decide

lemma options_no_space : ∀ o ∈ options, ∀ c ∈ o, pyIsSpace c = false := by decide

/-- Closed form of the Router extraction: first member of the fixed list that
occurs in the raw backend answer wins, otherwise FINISH. -/
lemma supervisor_node_eval (raw : List Char) :
    supervisor_node raw =
      if cleaning_agent <:+: raw then cleaning_agent
      else if clustering_agent <:+: raw then clustering_agent
      else if visualization_agent <:+: raw then visualization_agent
      else FINISH_token := by
  have hiff : ∀ o ∈ options, ((o <:+: pyStrip raw) ↔ (o <:+: raw)) :=
    fun o ho => strip_sub_iff o raw (options_ne_nil o ho) (options_no_space o ho)
  show (options.find? (fun o => decide (o <:+: pyStrip raw))).getD FINISH_token = _
  have hopts : options = [cleaning_agent, clustering_agent, visualization_agent,
      FINISH_token] := rfl
  rw [hopts]
  have b1 : (cleaning_agent <:+: pyStrip raw) = (cleaning_agent <:+: raw) :=
    propext (hiff cleaning_agent (by decide))
  have b2 : (clustering_agent <:+: pyStrip raw) = (clustering_agent <:+: raw) :=
    propext (hiff clustering_agent (by decide))
  have b3 : (visualization_agent <:+: pyStrip raw) = (visualization_agent <:+: raw) :=
    propext (hiff visualization_agent (by decide))
  by_cases h1 : cleaning_agent <:+: raw
  · simp [List.find?_cons, b1, h1]
  · by_cases h2 : clustering_agent <:+: raw
    · simp [List.find?_cons, b1, b2, h1, h2]
    · by_cases h3 : visualization_agent <:+: raw
      · simp [List.find?_cons, b1, b2, b3, h1, h2, h3]
      · by_cases h4 : FINISH_token <:+: pyStrip raw
        · simp [List.find?_cons, b1, b2, b3, h1, h2, h3, h4]
        · simp [List.find?_cons, b1, b2, b3, h1, h2, h3, h4]

/-- Claim C1: for every free-text string returned by the reasoning backend, the
Router's decide step (`supervisor_node`) returns exactly one action from the
closed set {cleaning_agent, clustering_agent, visualization_agent, FINISH} —
never any other value, never empty — including for the empty string, pure
whitespace, and strings mentioning several agent names. -/
theorem router_action_set_closure (raw : List Char) :
    supervisor_node raw ∈ options ∧ supervisor_node raw ≠ [] := by
  rw [supervisor_node_eval]
  split_ifs <;> exact ⟨by decide, by decide⟩

/-- Claim C2: whenever the backend output contains both an agent name and the
terminate token "FINISH" as substrings, `supervisor_node` returns an agent name
occurring in the output, never "FINISH"; moreover on the raw text
"I think we should proceed with clustering_agent next." it returns
clustering_agent. -/
theorem router_agent_over_finish (raw m : List Char)
    (hm : m ∈ members) (hmr : m <:+: raw) (hF : FINISH_token <:+: raw) :
    (supervisor_node raw ∈ members ∧ supervisor_node raw <:+: raw ∧
      supervisor_node raw ≠ FINISH_token) ∧
    supervisor_node ("I think we should proceed with clustering_agent next.".data) =
      clustering_agent := by
  constructor
  · rw [supervisor_node_eval]
    split_ifs with h1 h2 h3
    · exact ⟨by decide, h1, by decide⟩
    · exact ⟨by decide, h2, by decide⟩
    · exact ⟨by decide, h3, by decide⟩
    · exfalso
      simp [members] at hm
      rcases hm with rfl | rfl | rfl
      · exact h1 hmr
      · exact h2 hmr
      · exact h3 hmr
  · decide

theorem router_agent_over_finish_witness :
    (clustering_agent ∈ members ∧
      clustering_agent <:+: ("FINISH or clustering_agent".data) ∧
      FINISH_token <:+: ("FINISH or clustering_agent".data)) ∧
    (supervisor_node ("FINISH or clustering_agent".data) ∈ members ∧
      supervisor_node ("FINISH or clustering_agent".data) <:+:
        ("FINISH or clustering_agent".data) ∧
      supervisor_node ("FINISH or clustering_agent".data) ≠ FINISH_token) :=
  ⟨⟨by decide, by decide, by decide⟩,
    (router_agent_over_finish ("FINISH or clustering_agent".data) clustering_agent
      (by decide) (by decide) (by decide)).1⟩

/-- Claim C3: for every backend output string in which none of the four
closed-set action names occurs as a substring, `supervisor_node` returns the
FINISH action. -/
theorem router_failsafe_default (raw : List Char)
    (h : ∀ o ∈ options, ¬ o <:+: raw) :
    supervisor_node raw = FINISH_token := by
  rw [supervisor_node_eval]
  rw [if_neg (h cleaning_agent (by decide)), if_neg (h clustering_agent (by decide)),
    if_neg (h visualization_agent (by decide))]

theorem router_failsafe_default_witness :
    (∀ o ∈ options, ¬ o <:+: ("all done here".data)) ∧
    supervisor_node ("all done here".data) = FINISH_token :=
  ⟨by decide, router_failsafe_default ("all done here".data) (by decide)⟩

/-- Claim C10: when the backend output contains two or more distinct agent names
as substrings, `supervisor_node` returns the agent that comes first in the fixed
candidate list [cleaning_agent, clustering_agent, visualization_agent],
regardless of the order or positions in which the names occur in the text. -/
theorem router_first_in_list_priority (raw m₁ m₂ : List Char)
    (h₁ : m₁ ∈ members) (h₂ : m₂ ∈ members) (hne : m₁ ≠ m₂)
    (hr₁ : m₁ <:+: raw) (hr₂ : m₂ <:+: raw) :
    supervisor_node raw ∈ members ∧
    (cleaning_agent <:+: raw → supervisor_node raw = cleaning_agent) ∧
    (¬ cleaning_agent <:+: raw → clustering_agent <:+: raw →
      supervisor_node raw = clustering_agent) ∧
    (¬ cleaning_agent <:+: raw → ¬ clustering_agent <:+: raw →
      visualization_agent <:+: raw → supervisor_node raw = visualization_agent) := by
  rw [supervisor_node_eval]
  refine ⟨?_, ?_, ?_, ?_⟩
  · split_ifs with k1 k2 k3
    · decide
    · decide
    · decide
    · exfalso
      simp [members] at h₁
      rcases h₁ with rfl | rfl | rfl
      · exact k1 hr₁
      · exact k2 hr₁
      · exact k3 hr₁
  · intro hc; rw [if_pos hc]
  · intro hc hcl; rw [if_neg hc, if_pos hcl]
  · intro hc hcl hv; rw [if_neg hc, if_neg hcl, if_pos hv]

theorem router_first_in_list_priority_witness :
    (clustering_agent ∈ members ∧ visualization_agent ∈ members ∧
      clustering_agent ≠ visualization_agent ∧
      clustering_agent <:+: ("use visualization_agent after clustering_agent".data) ∧
      visualization_agent <:+: ("use visualization_agent after clustering_agent".data)) ∧
    supervisor_node ("use visualization_agent after clustering_agent".data) =
      clustering_agent :=
  ⟨⟨by decide, by decide, by decide, by decide, by decide⟩,
    (router_first_in_list_priority
        ("use visualization_agent after clustering_agent".data)
        clustering_agent visualization_agent (by decide) (by decide) (by decide)
        (by decide) (by decide)).2.2.1 (by decide) (by decide)⟩

/-! ### Result Extractor and worker invocation (src/agents.py lines 100-150)

The specialist agent itself is an external collaborator; `run_specialist` is
modelled with the worker as an explicit function `invoke` from the augmented
message list to the resulting message list.  Message entries are modelled by
their content strings. -/

/-- The guard substring of line 139: `"saved to:" in last_msg.lower()`. -/
def saved_to_check : List Char := "saved to:".data

/-- The literal part of the regex of line 142: `saved to: (.*?\.csv)`. -/
def saved_to_pattern : List Char := "saved to: ".data

def csv_ext : List Char := ".csv".data

/-- The group `(.*?\.csv)` matched at a fixed position: the shortest
newline-free stretch ending in ".csv" (`.` does not match a newline, `*?` is
non-greedy).  Returns the captured group, ".csv" included. -/
def grabCsv : List Char → Option (List Char)
  | [] => none
  | c :: rest =>
    if csv_ext.isPrefixOf (c :: rest) then some csv_ext
    else if c = '\n' then none
    else (grabCsv rest).map (fun t => c :: t)

/-- `re.search(r"saved to: (.*?\.csv)", s)`: try each start position left to
right; at the first position where the literal matches and the group succeeds,
return the group. -/
def findMarker : List Char → Option (List Char)
  | [] => none
  | c :: rest =>
    match (if saved_to_pattern.isPrefixOf (c :: rest)
           then grabCsv (List.drop saved_to_pattern.length (c :: rest))
           else none) with
    | some g => some g
    | none => findMarker rest

/-- Pointer extraction from one message (lines 137-145): the case-insensitive
guard, then the case-sensitive regex search, then `.strip()` on the captured
group.  `Char.toLower` models `str.lower()` on the ASCII range. -/
def extractFromMsg (content : List Char) : Option (List Char) :=
  if saved_to_check <:+: content.map Char.toLower then
    (findMarker content).map pyStrip
  else none

/-- The `for m in reversed(new_messages)` loop of lines 135-145: the most recent
message with a successful extraction wins; with no success the incoming
`df_path` is kept. -/
def update_df_path (df_path : List Char) (new_messages : List (List Char)) :
    List Char :=
  (new_messages.reverse.findSome? extractFromMsg).getD df_path

/-- The `AgentState` TypedDict of src/state.py. -/
structure AgentState where
  messages : List (List Char)
  next_node : List Char
  df_path : List Char

/-- The injected context entry of lines 107-118 with the current path spliced
in (apostrophes written as `\x27`). -/
def context_msg (current_path : List Char) : List Char :=
  "\n    IMPORTANT: The currently active data file path is: ".data ++ current_path ++
  ". \n    This is an ABSOLUTE PATH. You MUST use this EXACT string for all tool \x27file_path\x27 arguments.\n    \n    INSTRUCTIONS:\n    1. If you use \x27clean_data\x27, it will save a new file (identifiable by \x27_cleaned\x27 in the path).\n    2. If you see high correlations in \x27perform_eda\x27, use \x27clean_data\x27 ONCE more with \x27drop_columns\x27 (using the SUGGESTED DROPS from the EDA report) to fix them.\n    3. Once you have performed your specific task (e.g. cleaning, EDA, or clustering), summarize what was done and then FINISH YOUR TURN.\n    4. REPORT: \"Task Complete. Data is ready for [Next Step].\"\n    5. FORBIDDEN: Do NOT ask the user \"How would you like to proceed?\". Do NOT saying \"Let me know\". Just report facts and exit.\n    6. DO NOT loop indefinitely. Perform the action, summarize, and exit.\n    ".data

/-- `run_specialist` (lines 100-150): copy the state, append the context entry,
record the message count, invoke the worker on the augmented list, keep exactly
the suffix beyond the recorded count, and update the pointer from that suffix.
The unused `name`/`agent` bindings of the source do not affect the result;
`invoke` stands for `agent.invoke`, restricted to the message list. -/
def run_specialist (state : AgentState)
    (invoke : List (List Char) → List (List Char)) :
    List (List Char) × List Char :=
  let local_messages := state.messages ++ [context_msg state.df_path]
  let history_len := local_messages.length
  let result := invoke local_messages
  let new_messages := result.drop history_len
  (new_messages, update_df_path state.df_path new_messages)

/-- Claim C4: if the extracted new messages contain a message with a valid
save-marker, the returned pointer is the path extracted from the last such
message, earlier ones in the same batch being ignored; with no valid marker the
input pointer is returned unchanged. -/
theorem pointer_last_marker_wins (df0 p m : List Char)
    (pre post : List (List Char))
    (hm : extractFromMsg m = some p)
    (hpost : ∀ x ∈ post, extractFromMsg x = none) :
    update_df_path df0 (pre ++ m :: post) = p ∧
    ∀ msgs : List (List Char), (∀ x ∈ msgs, extractFromMsg x = none) →
      update_df_path df0 msgs = df0 := by
  constructor
  · show ((pre ++ m :: post).reverse.findSome? extractFromMsg).getD df0 = p
    have hnone : post.reverse.findSome? extractFromMsg = none := by
      rw [List.findSome?_eq_none_iff]
      intro x hx
      exact hpost x (List.mem_reverse.mp hx)
    rw [List.reverse_append, List.reverse_cons, List.append_assoc,
      List.singleton_append, List.findSome?_append, hnone, List.findSome?_cons, hm]
    rfl
  · intro msgs hall
    show (msgs.reverse.findSome? extractFromMsg).getD df0 = df0
    rw [List.findSome?_eq_none_iff.mpr
      (fun x hx => hall x (List.mem_reverse.mp hx))]
    rfl

theorem pointer_last_marker_wins_witness :
    extractFromMsg ("ok saved to: /b_cleaned.csv done".data) =
      some ("/b_cleaned.csv".data) ∧
    (∀ x ∈ [("no marker here".data)], extractFromMsg x = none) ∧
    update_df_path ("/a.csv".data)
      (["first saved to: /old_cleaned.csv".data] ++
        ("ok saved to: /b_cleaned.csv done".data) :: [("no marker here".data)]) =
      "/b_cleaned.csv".data ∧
    update_df_path ("/a.csv".data) [("nothing".data)] = "/a.csv".data := by
  refine ⟨by decide, by decide, ?_, ?_⟩
  · exact (pointer_last_marker_wins ("/a.csv".data) ("/b_cleaned.csv".data)
      ("ok saved to: /b_cleaned.csv done".data)
      ["first saved to: /old_cleaned.csv".data] [("no marker here".data)]
      (by decide) (by decide)).1
  · exact (pointer_last_marker_wins ("/a.csv".data) ("/b_cleaned.csv".data)
      ("ok saved to: /b_cleaned.csv done".data)
      ["first saved to: /old_cleaned.csv".data] [("no marker here".data)]
      (by decide) (by decide)).2 [("nothing".data)] (by decide)

/-- Claim C5 is contradicted by the code: the guard of line 139 lowercases the
message, but the regex of line 142 is case-sensitive, so a message carrying the
marker as "Saved to: <path>" passes the guard yet yields no match and no `break`
— the pointer stays unchanged instead of being updated to the path. -/
theorem result_extractor_case_sensitivity_bug :
    saved_to_check <:+: (("Saved to: /data/x_cleaned.csv".data).map Char.toLower) ∧
    extractFromMsg ("Saved to: /data/x_cleaned.csv".data) = none ∧
    update_df_path ("/data/x.csv".data) [("Saved to: /data/x_cleaned.csv".data)] =
      "/data/x.csv".data :=
  ⟨by decide, by decide, by decide⟩

/-- Claim C7: the returned new messages are exactly the suffix of the worker's
resulting message list beyond the pre-call length (recorded after appending the
context entry), so they contain no pre-existing message and not the injected
context entry itself.  The hypothesis is the append-only message discipline of
the graph framework. -/
theorem delta_isolation (state : AgentState)
    (invoke : List (List Char) → List (List Char)) (extra : List (List Char))
    (h : invoke (state.messages ++ [context_msg state.df_path]) =
      (state.messages ++ [context_msg state.df_path]) ++ extra) :
    (run_specialist state invoke).1 = extra ∧
    invoke (state.messages ++ [context_msg state.df_path]) =
      state.messages ++ [context_msg state.df_path] ++
        (run_specialist state invoke).1 := by
  have hfst : (run_specialist state invoke).1 = extra := by
    show (invoke (state.messages ++ [context_msg state.df_path])).drop
      (state.messages ++ [context_msg state.df_path]).length = extra
    rw [h, List.drop_left]
  exact ⟨hfst, by rw [h, hfst]⟩

theorem delta_isolation_witness :
    (run_specialist ⟨[("hello".data)], [], "/a.csv".data⟩
      (fun ms => ms ++ [("done".data)])).1 = [("done".data)] :=
  (delta_isolation ⟨[("hello".data)], [], "/a.csv".data⟩
    (fun ms => ms ++ [("done".data)]) [("done".data)] rfl).1

/-! ### Tools (src/tools.py)

The statistical bodies (pandas/sklearn) are external collaborators; what the
core contract depends on — and what is embedded here — is the output-path
derivation and the returned report text of each artifact-producing tool. -/

/-- Python `s.rfind(c)` for a single-character needle: index of the last
occurrence, `-1` if absent. -/
def pyRfind (c : Char) : List Char → Int
  | [] => -1
  | a :: rest =>
    let r := pyRfind c rest
    if 0 ≤ r then r + 1 else if a = c then 0 else -1

/-- `os.path.splitext` (posix): split at the last dot when it lies after the
last separator and some character strictly between them is not a dot (the
leading-dots rule); otherwise the extension is empty. -/
def splitext (p : List Char) : List Char × List Char :=
  if pyRfind '/' p < pyRfind '.' p ∧
      ((List.range p.length).any fun k =>
        decide (pyRfind '/' p < (k : Int)) && decide ((k : Int) < pyRfind '.' p) &&
          decide (p.getD k '.' ≠ '.')) then
    (p.take (pyRfind '.' p).toNat, p.drop (pyRfind '.' p).toNat)
  else (p, [])

/-- Python `p.endswith(suf)`. -/
def endswith (p suf : List Char) : Bool := suf.isSuffixOf p

/-- Output-path derivation of `clean_data` (src/tools.py lines 72-76): keep the
path when the stem already ends in "_cleaned", else insert "_cleaned" before
the extension. -/
def clean_data_output_path (file_path : List Char) : List Char :=
  if endswith (splitext file_path).1 ("_cleaned".data) then file_path
  else (splitext file_path).1 ++ "_cleaned".data ++ (splitext file_path).2

/-- Success message of `clean_data` (lines 79-82); `dropped` renders the
optional `Dropped:` clause, `nrows` the surviving row count. -/
def clean_data_msg (output_path : List Char) (dropped : Option (List Char))
    (nrows : Nat) : List Char :=
  "Data cleaning complete. Saved to: ".data ++ output_path ++ ".".data ++
    (match dropped with
     | some ds => " Dropped: ".data ++ ds ++ ".".data
     | none => []) ++
    " Handled nulls, validated types, and sanitized ".data ++
    (Nat.repr nrows).data ++ " rows.".data

/-- Success message of `perform_clustering` (line 174). -/
def perform_clustering_msg (output_path : List Char) : List Char :=
  "Clustering complete. Results saved to: ".data ++ output_path ++
    ". PCA components (PCA1, PCA2) and \x27Cluster\x27 labels added.".data

def clustered_csv : List Char := "_clustered.csv".data

/-- `file_path.replace(".csv", "_clustered.csv")` (line 171): replace every
occurrence of ".csv", scanning left to right without overlap. -/
def replaceCsv : List Char → List Char
  | '.' :: 'c' :: 's' :: 'v' :: rest => clustered_csv ++ replaceCsv rest
  | c :: rest => c :: replaceCsv rest
  | [] => []

/-- Output-path derivation of `perform_clustering` (line 171). -/
def perform_clustering_output_path (file_path : List Char) : List Char :=
  replaceCsv file_path

/-- The clustering output-path convention as the spec words it, for comparison
with the code's `perform_clustering_output_path`: the input with "_clustered"
inserted immediately before the extension. -/
def spec_clustered_path (file_path : List Char) : List Char :=
  (splitext file_path).1 ++ "_clustered".data ++ (splitext file_path).2

/-! Helper lemmas on list surgery. -/

lemma take_append_add (l₁ l₂ : List Char) (k : Nat) :
    (l₁ ++ l₂).take (l₁.length + k) = l₁ ++ l₂.take k := by
  induction l₁ with
  | nil => simp
  | cons a t ih =>
    have h : (a :: t).length + k = (t.length + k) + 1 := by
      rw [List.length_cons]; omega
    rw [List.cons_append, h, List.take_succ_cons, ih, List.cons_append]

lemma drop_append_add (l₁ l₂ : List Char) (k : Nat) :
    (l₁ ++ l₂).drop (l₁.length + k) = l₂.drop k := by
  induction l₁ with
  | nil => simp
  | cons a t ih =>
    have h : (a :: t).length + k = (t.length + k) + 1 := by
      rw [List.length_cons]; omega
    rw [List.cons_append, h, List.drop_succ_cons, ih]

lemma getD_append_offset (l₁ l₂ : List Char) (k : Nat) (d : Char) :
    (l₁ ++ l₂).getD (l₁.length + k) d = l₂.getD k d := by
  induction l₁ with
  | nil => simp
  | cons a t ih =>
    have h : (a :: t).length + k = (t.length + k) + 1 := by
      rw [List.length_cons]; omega
    rw [List.cons_append, h, List.getD_cons_succ, ih]

lemma take_append_of_le (l₃ : List Char) :
    ∀ (n : Nat) (l₂ : List Char), n ≤ l₂.length → (l₂ ++ l₃).take n = l₂.take n := by
  intro n
  induction n with
  | zero => intro l₂ _; simp
  | succ n ih =>
    intro l₂ hn
    cases l₂ with
    | nil => simp at hn
    | cons a t =>
      rw [List.cons_append, List.take_succ_cons, List.take_succ_cons,
        ih t (by rw [List.length_cons] at hn; omega)]

lemma prefix_shrink {l₁ l₂ l₃ : List Char} (h : l₁ <+: l₂ ++ l₃)
    (hl : l₁.length ≤ l₂.length) : l₁ <+: l₂ := by
  have he : l₁ = (l₂ ++ l₃).take l₁.length := List.prefix_iff_eq_take.mp h
  rw [he, take_append_of_le l₃ l₁.length l₂ hl]
  exact List.take_prefix _ _

/-! Facts about the `_cleaned.csv` shape used by claim C8. -/

def cleaned_csv : List Char := "_cleaned.csv".data

lemma pyRfind_dot_cleaned (pre : List Char) :
    pyRfind '.' (pre ++ cleaned_csv) = (pre.length : Int) + 8 := by
  induction pre with
  | nil => decide
  | cons a t ih =>
    rw [List.cons_append]
    show (if 0 ≤ pyRfind '.' (t ++ cleaned_csv) then pyRfind '.' (t ++ cleaned_csv) + 1
        else if a = '.' then (0 : Int) else -1) = ((a :: t).length : Int) + 8
    have h0 : (0 : Int) ≤ pyRfind '.' (t ++ cleaned_csv) := by rw [ih]; omega
    rw [if_pos h0, ih, List.length_cons]
    push_cast
    ring

lemma pyRfind_slash_cleaned (pre : List Char) :
    pyRfind '/' (pre ++ cleaned_csv) ≤ (pre.length : Int) - 1 := by
  induction pre with
  | nil => decide
  | cons a t ih =>
    rw [List.cons_append]
    show (if 0 ≤ pyRfind '/' (t ++ cleaned_csv) then pyRfind '/' (t ++ cleaned_csv) + 1
        else if a = '/' then (0 : Int) else -1) ≤ ((a :: t).length : Int) - 1
    rw [List.length_cons]
    by_cases h0 : (0 : Int) ≤ pyRfind '/' (t ++ cleaned_csv)
    · rw [if_pos h0]
      push_cast
      omega
    · rw [if_neg h0]
      by_cases ha : a = '/'
      · rw [if_pos ha]; push_cast; omega
      · rw [if_neg ha]; push_cast; omega

lemma splitext_cleaned (pre : List Char) :
    splitext (pre ++ cleaned_csv) = (pre ++ "_cleaned".data, csv_ext) := by
  have hdot := pyRfind_dot_cleaned pre
  have hsep := pyRfind_slash_cleaned pre
  have hlen : (pre ++ cleaned_csv).length = pre.length + 12 := by
    rw [List.length_append, show cleaned_csv.length = 12 from rfl]
  have hcond : pyRfind '/' (pre ++ cleaned_csv) < pyRfind '.' (pre ++ cleaned_csv) ∧
      ((List.range (pre ++ cleaned_csv).length).any fun k =>
        decide (pyRfind '/' (pre ++ cleaned_csv) < (k : Int)) &&
          decide ((k : Int) < pyRfind '.' (pre ++ cleaned_csv)) &&
          decide ((pre ++ cleaned_csv).getD k '.' ≠ '.')) := by
    constructor
    · rw [hdot]; exact lt_of_le_of_lt hsep (by omega)
    · rw [List.any_eq_true]
      refine ⟨pre.length + 7, ⟨?_, ?_⟩⟩
      · rw [List.mem_range, hlen]; omega
      · have hg : (pre ++ cleaned_csv).getD (pre.length + 7) '.' = 'd' := by
          rw [getD_append_offset]; rfl
        simp only [Bool.and_eq_true, decide_eq_true_eq]
        refine ⟨⟨?_, ?_⟩, ?_⟩
        · exact lt_of_le_of_lt hsep (by omega)
        · rw [hdot]; push_cast; omega
        · rw [hg]; decide
  rw [splitext, if_pos hcond]
  have htn : (pyRfind '.' (pre ++ cleaned_csv)).toNat = pre.length + 8 := by
    rw [hdot]; omega
  rw [htn, take_append_add, drop_append_add,
    show cleaned_csv.take 8 = "_cleaned".data from by decide,
    show cleaned_csv.drop 8 = csv_ext from by decide]

lemma splitext_recomb (p : List Char) : (splitext p).1 ++ (splitext p).2 = p := by
  rw [splitext]
  split
  · exact List.take_append_drop _ p
  · simp

/-- Claim C8: the cleaning output-path derivation is idempotent — on a path
already ending in "_cleaned.csv" the output path equals the input (overwrite in
place), and on a path whose stem does not end in "_cleaned" the output is the
input with "_cleaned" inserted before the extension. -/
theorem cleaning_path_idempotent :
    (∀ pre : List Char,
      clean_data_output_path (pre ++ "_cleaned.csv".data) = pre ++ "_cleaned.csv".data) ∧
    (∀ p : List Char, endswith (splitext p).1 ("_cleaned".data) = false →
      clean_data_output_path p =
        (splitext p).1 ++ "_cleaned".data ++ (splitext p).2 ∧
      (splitext p).1 ++ (splitext p).2 = p) := by
  constructor
  · intro pre
    show clean_data_output_path (pre ++ cleaned_csv) = pre ++ cleaned_csv
    have hend : endswith (splitext (pre ++ cleaned_csv)).1 ("_cleaned".data) = true := by
      rw [splitext_cleaned]
      exact List.isSuffixOf_iff_suffix.mpr (List.suffix_append pre ("_cleaned".data))
    rw [clean_data_output_path, if_pos hend]
  · intro p hfalse
    refine ⟨?_, splitext_recomb p⟩
    rw [clean_data_output_path, if_neg (by rw [hfalse]; exact Bool.false_ne_true)]

theorem cleaning_path_idempotent_witness :
    endswith (splitext ("data/raw.csv".data)).1 ("_cleaned".data) = false ∧
    clean_data_output_path ("data/raw.csv".data) =
      (splitext ("data/raw.csv".data)).1 ++ "_cleaned".data ++
        (splitext ("data/raw.csv".data)).2 ∧
    clean_data_output_path ("data/raw".data ++ "_cleaned.csv".data) =
      "data/raw".data ++ "_cleaned.csv".data :=
  ⟨by decide, (cleaning_path_idempotent.2 ("data/raw.csv".data) (by decide)).1,
    cleaning_path_idempotent.1 ("data/raw".data)⟩

set_option maxRecDepth 4000 in
/-- Claim C6 is contradicted by `clean_data`: its success message spells the
marker "Saved to: " with a capital S (line 79), so the literal case-sensitive
phrase "saved to: " demanded by the protocol is absent and the Result
Extractor's case-sensitive regex extracts nothing from it, while
`perform_clustering` (line 174) does emit the lowercase marker followed by the
output path. -/
theorem clean_data_marker_case_bug :
    ¬ saved_to_pattern <:+: clean_data_msg ("data/raw_cleaned.csv".data) none 100 ∧
    extractFromMsg (clean_data_msg ("data/raw_cleaned.csv".data) none 100) = none ∧
    saved_to_pattern <:+: perform_clustering_msg ("data/raw_clustered.csv".data) ∧
    extractFromMsg (perform_clustering_msg ("data/raw_clustered.csv".data)) =
      some ("data/raw_clustered.csv".data) :=
  ⟨by decide, by decide, by decide, by decide⟩

/-! Claim C9: the clustering output path. -/

/-- Claim C9 as stated fails on the code: on input "data.txt" the code's
`file_path.replace(".csv", "_clustered.csv")` leaves the path unchanged (so the
tool would overwrite its input file), while inserting "_clustered" before the
extension would give "data_clustered.txt". -/
theorem clustering_path_claim_counterexample :
    perform_clustering_output_path ("data.txt".data) = "data.txt".data ∧
    spec_clustered_path ("data.txt".data) = "data_clustered.txt".data ∧
    perform_clustering_output_path ("data.txt".data) ≠
      spec_clustered_path ("data.txt".data) :=
  ⟨by decide, by decide, by decide⟩

lemma replaceCsv_cons_of_ne (c : Char) (l : List Char)
    (h : ¬ csv_ext <+: c :: l) :
    replaceCsv (c :: l) = c :: replaceCsv l := by
  rw [replaceCsv.eq_def]
  split
  · rename_i rest heq
    exfalso
    apply h
    injection heq with h1 heq
    subst h1; subst heq
    exact ⟨rest, rfl⟩
  · rename_i c' rest' heq
    injection heq with h1 heq
    subst h1; subst heq
    rfl
  · rename_i heq
    exact absurd heq (by simp)

lemma replaceCsv_append_csv (b : List Char)
    (h : ¬ csv_ext <:+: (b ++ ('.' :: 'c' :: 's' :: []))) :
    replaceCsv (b ++ csv_ext) = b ++ clustered_csv := by
  induction b with
  | nil => decide
  | cons c b ih =>
    have hstep : ¬ csv_ext <+: c :: (b ++ csv_ext) := by
      intro hp
      apply h
      have hsplit : c :: (b ++ csv_ext) =
          ((c :: b) ++ ('.' :: 'c' :: 's' :: [])) ++ ['v'] := by
        simp [csv_ext]
      rw [hsplit] at hp
      have hlen : csv_ext.length ≤ ((c :: b) ++ ('.' :: 'c' :: 's' :: [])).length := by
        rw [List.length_append, List.length_cons,
          show csv_ext.length = 4 from rfl,
          show ('.' :: 'c' :: 's' :: [] : List Char).length = 3 from rfl]
        omega
      exact (prefix_shrink hp hlen).isInfix
    have hb : ¬ csv_ext <:+: (b ++ ('.' :: 'c' :: 's' :: [])) := by
      intro hs
      exact h (hs.trans (List.suffix_cons c _).isInfix)
    rw [List.cons_append, replaceCsv_cons_of_ne c (b ++ csv_ext) hstep, ih hb,
      List.cons_append]

/-- Claim C9 amended: `perform_clustering` derives its output path by replacing
every occurrence of ".csv" with "_clustered.csv"; for an input path ending in
".csv" whose only occurrence of ".csv" is that final extension, this equals
inserting "_clustered" immediately before the extension, and the tool reports
that path in its return text right after the literal "saved to: " marker. -/
theorem clustering_path_amended (b : List Char)
    (h : ¬ csv_ext <:+: (b ++ ('.' :: 'c' :: 's' :: []))) :
    perform_clustering_output_path (b ++ csv_ext) = b ++ clustered_csv ∧
    (saved_to_pattern ++ (b ++ clustered_csv)) <:+:
      perform_clustering_msg (perform_clustering_output_path (b ++ csv_ext)) := by
  have h1 : perform_clustering_output_path (b ++ csv_ext) = b ++ clustered_csv :=
    replaceCsv_append_csv b h
  refine ⟨h1, ?_⟩
  rw [h1]
  refine ⟨"Clustering complete. Results ".data,
    ". PCA components (PCA1, PCA2) and \x27Cluster\x27 labels added.".data, ?_⟩
  have hA : ("Clustering complete. Results ".data : List Char) ++ saved_to_pattern =
      "Clustering complete. Results saved to: ".data := by decide
  rw [perform_clustering_msg, ← hA]
  simp [List.append_assoc]

theorem clustering_path_amended_witness :
    (¬ csv_ext <:+: ("data/raw_cleaned".data ++ ('.' :: 'c' :: 's' :: []))) ∧
    perform_clustering_output_path ("data/raw_cleaned".data ++ csv_ext) =
      "data/raw_cleaned".data ++ clustered_csv :=
  ⟨by decide, (clustering_path_amended ("data/raw_cleaned".data) (by decide)).1⟩

end CleanSeg
